import Mathlib

/-!
Verification of the LianesMinecraftFront backend core: the daily-backup
retention engine (`DailyBackupStorageService`), the ensure-daily-backup and
start-workflow use cases, and the subprocess lifecycle manager
(`SubprocessServerManager`).

The Python source is shallowly embedded: the filesystem is a finite map from
paths (lists of name components) to entry kinds, `datetime.date` values are
year/month/day triples compared through their proleptic-Gregorian ordinal
(`date.toordinal`), and the process manager is a state machine whose
interactions with the operating system (`poll`, `wait`, spawn success) are
supplied as explicit boolean inputs.
-/

set_option autoImplicit false

namespace MCServer

/-! ### Filesystem model

Paths are lists of components; a filesystem is an association list from paths
to entry kinds.  Lookup returns the first binding, insertion prepends. -/

/-- Kind of a filesystem entry: directory or regular file. -/
inductive EntryKind where
  | dir
  | file
deriving DecidableEq, Repr

/-- A filesystem path, as its list of name components. -/
abbrev FilePath0 := List String

/-- A model filesystem: the list of existing paths with their kinds. -/
structure FS where
  entries : List (FilePath0 × EntryKind)
deriving DecidableEq, Repr

/-- First-match lookup in an association list of paths. -/
def lookupL : List (FilePath0 × EntryKind) → FilePath0 → Option EntryKind
  | [], _ => none
  | e :: rest, q => if e.1 = q then some e.2 else lookupL rest q

/-- Path `q` lies at or below path `p`. -/
def pathUnder (p q : FilePath0) : Bool := decide (q.take p.length = p)

/-- Remove every entry at or below `p` (the model of `shutil.rmtree`). -/
def removeTreeL (p : FilePath0) : List (FilePath0 × EntryKind) → List (FilePath0 × EntryKind)
  | [] => []
  | e :: rest => if pathUnder p e.1 then removeTreeL p rest else e :: removeTreeL p rest

/-- Rename the subtree rooted at `src` to `dst` (the model of `shutil.move`
onto a non-existing destination). -/
def moveEntryL (src dst : FilePath0) :
    List (FilePath0 × EntryKind) → List (FilePath0 × EntryKind)
  | [] => []
  | e :: rest =>
    if pathUnder src e.1 then (dst ++ e.1.drop src.length, e.2) :: moveEntryL src dst rest
    else e :: moveEntryL src dst rest

/-- The name of `p` when `p` is an immediate child of `base`. -/
def childNameOf (base p : FilePath0) : Option String :=
  if p.take base.length = base then
    match p.drop base.length with
    | [n] => some n
    | _ => none
  else none

/-- Names of immediate children of `base` among `ps`, in order (the model of
`Path.iterdir`). -/
def childNamesL (base : FilePath0) : List FilePath0 → List String
  | [] => []
  | p :: rest =>
    match childNameOf base p with
    | some n => n :: childNamesL base rest
    | none => childNamesL base rest

def FS.lookup (fs : FS) (q : FilePath0) : Option EntryKind := lookupL fs.entries q

def FS.insert (fs : FS) (p : FilePath0) (k : EntryKind) : FS := ⟨(p, k) :: fs.entries⟩

def FS.removeTree (fs : FS) (p : FilePath0) : FS := ⟨removeTreeL p fs.entries⟩

def FS.moveEntry (fs : FS) (src dst : FilePath0) : FS := ⟨moveEntryL src dst fs.entries⟩

def FS.childNames (fs : FS) (base : FilePath0) : List String :=
  childNamesL base (fs.entries.map Prod.fst)

/-- Remove the subtrees rooted at each path of `ps`, left to right. -/
def FS.removeTrees (fs : FS) : List FilePath0 → FS
  | [] => fs
  | p :: ps => (fs.removeTree p).removeTrees ps

/-! ### Dates

`datetime.date` is embedded as a year/month/day triple; `toOrdinal` is
`date.toordinal()` (proleptic Gregorian day number, `0001-01-01` is day 1),
which is what both date comparison and `date - timedelta(days=k)` reduce to. -/

/-- A calendar date, as in `datetime.date`. -/
structure PyDate where
  year : Nat
  month : Nat
  day : Nat
deriving DecidableEq, Repr

/-- Gregorian leap-year test. -/
def isLeap (y : Nat) : Bool := y % 4 == 0 && (y % 100 != 0 || y % 400 == 0)

/-- Length of month `m` in year `y`. -/
def daysInMonth (y m : Nat) : Nat :=
  if m = 2 then (if isLeap y then 29 else 28)
  else if m = 4 ∨ m = 6 ∨ m = 9 ∨ m = 11 then 30
  else 31

/-- Days in the months `1, …, k` of year `y`. -/
def sumMonths (y : Nat) : Nat → Nat
  | 0 => 0
  | k + 1 => sumMonths y k + daysInMonth y (k + 1)

/-- Days in all years before year `y`. -/
def daysBeforeYear (y : Nat) : Int :=
  let a : Int := (y : Int) - 1
  365 * a + a / 4 - a / 100 + a / 400

/-- Python's `date.toordinal()`. -/
def PyDate.toOrdinal (d : PyDate) : Int :=
  daysBeforeYear d.year + (sumMonths d.year (d.month - 1) : Int) + (d.day : Int)

/-- Left-pad a decimal string with zeros to width `w`. -/
def zfill (w : Nat) (s : String) : String :=
  if s.length < w then String.mk (List.replicate (w - s.length) '0') ++ s else s

/-- Python's `date.strftime("%Y-%m-%d")` (year zero-padded to four digits, month and
day to two). -/
def formatDate (d : PyDate) : String :=
  zfill 4 (toString d.year) ++ "-" ++ zfill 2 (toString d.month) ++ "-" ++ zfill 2 (toString d.day)

def isDigitChar (c : Char) : Bool := 48 ≤ c.toNat && c.toNat ≤ 57

def digitVal (c : Char) : Nat := c.toNat - 48

/-- Field `%Y` of `strptime`: exactly four decimal digits. -/
def parseYearField : List Char → Option (Nat × List Char)
  | a :: b :: c :: d :: rest =>
    if isDigitChar a && isDigitChar b && isDigitChar c && isDigitChar d then
      some (digitVal a * 1000 + digitVal b * 100 + digitVal c * 10 + digitVal d, rest)
    else none
  | _ => none

/-- Field `%m` of `strptime`: the ordered alternation `1[0-2] | 0[1-9] | [1-9]`. -/
def parseMonthField : List Char → Option (Nat × List Char)
  | [] => none
  | c :: rest =>
    if c = '1' then
      match rest with
      | c2 :: rest2 =>
        if '0' ≤ c2 && c2 ≤ '2' then some (10 + digitVal c2, rest2) else some (1, rest)
      | [] => some (1, [])
    else if c = '0' then
      match rest with
      | c2 :: rest2 => if '1' ≤ c2 && c2 ≤ '9' then some (digitVal c2, rest2) else none
      | [] => none
    else if '2' ≤ c && c ≤ '9' then some (digitVal c, rest)
    else none

/-- Field `%d` of `strptime`: the ordered alternation `3[01] | [12][0-9] | 0[1-9] | [1-9]`. -/
def parseDayField : List Char → Option (Nat × List Char)
  | [] => none
  | c :: rest =>
    if c = '3' then
      match rest with
      | c2 :: rest2 => if c2 = '0' || c2 = '1' then some (30 + digitVal c2, rest2) else some (3, rest)
      | [] => some (3, [])
    else if c = '1' || c = '2' then
      match rest with
      | c2 :: rest2 =>
        if isDigitChar c2 then some (digitVal c * 10 + digitVal c2, rest2) else some (digitVal c, rest)
      | [] => some (digitVal c, [])
    else if c = '0' then
      match rest with
      | c2 :: rest2 => if '1' ≤ c2 && c2 ≤ '9' then some (digitVal c2, rest2) else none
      | [] => none
    else if '4' ≤ c && c ≤ '9' then some (digitVal c, rest)
    else none

/-- Python's `datetime.strptime(s, "%Y-%m-%d").date()`, returning `none` where Python
raises `ValueError`: the whole string must be consumed and the resulting
triple must be a valid `date` (`MINYEAR ≤ year`, day within the month). -/
def parseDate (s : String) : Option PyDate :=
  match parseYearField s.data with
  | none => none
  | some (y, r1) =>
    match r1 with
    | '-' :: r2 =>
      match parseMonthField r2 with
      | none => none
      | some (m, r3) =>
        match r3 with
        | '-' :: r4 =>
          match parseDayField r4 with
          | none => none
          | some (d, r5) =>
            if r5 = [] ∧ 1 ≤ y ∧ d ≤ daysInMonth y m then some ⟨y, m, d⟩ else none
        | _ => none
    | _ => none

/-! ### Errors

The domain exception hierarchy of `domain/exceptions.py`, plus the raw
exceptions that can escape the embedded code (`OSError` from `iterdir` on a
non-directory root, `OverflowError` from the `timedelta` construction and
date subtraction in `prune_older_than`, the re-raised spawn exception in
`start`).  Message payloads are not modelled; no claim depends on them. -/

/-- The error kinds the embedded operations can raise. -/
inductive PyError where
  | backupStorage
  | archiveCreation
  | resourceNotFound
  | alreadyRunning
  | notRunning
  | osFailure
  | overflow
  | spawnFailure
deriving DecidableEq, Repr

/-! ### DailyBackupStorageService

Embeds `infrastructure/filesystem/daily_backup_storage_service.py`; the
service's `base_directory` is passed explicitly as `base`. -/

/-- Model of `Path.mkdir(parents=True, exist_ok=True)`: create every missing ancestor
as a directory; fail if an existing entry on the chain is not a directory. -/
def mkdirParentsAux (fs : FS) (done : FilePath0) : List String → Except Unit FS
  | [] => Except.ok fs
  | c :: cs =>
    match fs.lookup (done ++ [c]) with
    | some EntryKind.dir => mkdirParentsAux fs (done ++ [c]) cs
    | some EntryKind.file => Except.error ()
    | none => mkdirParentsAux (fs.insert (done ++ [c]) EntryKind.dir) (done ++ [c]) cs

def mkdirParents (fs : FS) (p : FilePath0) : Except Unit FS := mkdirParentsAux fs [] p

/-- Embeds `DailyBackupStorageService.prepare_daily_directory`. -/
def prepare_daily_directory (base : FilePath0) (backup_date : PyDate) (fs : FS) :
    Except PyError (Option FilePath0 × FS) :=
  match mkdirParents fs base with
  | Except.error _ => Except.error PyError.backupStorage
  | Except.ok fs1 =>
    match fs1.lookup (base ++ [formatDate backup_date]) with
    | some EntryKind.file => Except.error PyError.backupStorage
    | some EntryKind.dir => Except.ok (none, fs1)
    | none =>
      Except.ok (some (base ++ [formatDate backup_date]),
        fs1.insert (base ++ [formatDate backup_date]) EntryKind.dir)

/-- Embeds `DailyBackupStorageService.store_archive`. -/
def store_archive (archive_path destination_dir : FilePath0) (filename : String) (fs : FS) :
    Except PyError (FilePath0 × FS) :=
  match fs.lookup archive_path with
  | none => Except.error PyError.backupStorage
  | some _ =>
    if fs.lookup destination_dir = some EntryKind.dir then
      if fs.lookup (destination_dir ++ [filename]) = none then
        Except.ok (destination_dir ++ [filename],
          fs.moveEntry archive_path (destination_dir ++ [filename]))
      else Except.error PyError.backupStorage
    else Except.error PyError.backupStorage

/-- The loop body of `prune_older_than` over the scanned child names:
skip non-directories, skip names `strptime` rejects, recursively delete
directories dated strictly before `keepFrom`, accumulating deleted paths. -/
def pruneLoop (keepFrom : Int) (base : FilePath0) (fs : FS) :
    List String → List FilePath0 × FS
  | [] => ([], fs)
  | n :: rest =>
    if fs.lookup (base ++ [n]) = some EntryKind.dir then
      match parseDate n with
      | some d =>
        if d.toOrdinal < keepFrom then
          let res := pruneLoop keepFrom base (fs.removeTree (base ++ [n])) rest
          ((base ++ [n]) :: res.1, res.2)
        else pruneLoop keepFrom base fs rest
      | none => pruneLoop keepFrom base fs rest
    else pruneLoop keepFrom base fs rest

/-- The largest day magnitude a `datetime.timedelta` accepts; beyond it the
constructor raises `OverflowError`. -/
def timedeltaMaxDays : Int := 999999999

/-- CPython's `_MAXORDINAL`, the ordinal of `date.max` (9999-12-31).
`date + timedelta` raises `OverflowError` unless the resulting ordinal `o`
satisfies `0 < o ≤ _MAXORDINAL`. -/
def maxOrdinal : Int := 3652059

/-- Embeds `DailyBackupStorageService.prune_older_than` with an explicit reference
date (`reference_date or date.today()` is always the provided date here;
`date - timedelta(days=k)` is ordinal subtraction).  Computing `keep_from`
raises `OverflowError` when `retention_days - 1` exceeds the `timedelta`
day bound or when the resulting ordinal falls outside
`date.min ... date.max`; as in the source, this happens before the
backup-root existence check.  A backup root that exists as a regular file
makes `iterdir` raise `NotADirectoryError`, an uncaught `OSError`. -/
def prune_older_than (fs : FS) (base : FilePath0) (retention_days : Int) (reference : PyDate) :
    Except PyError (List FilePath0 × FS) :=
  let retention := if retention_days ≤ 0 then 1 else retention_days
  if timedeltaMaxDays < retention - 1 then Except.error PyError.overflow
  else if reference.toOrdinal - (retention - 1) < 1 ∨
      maxOrdinal < reference.toOrdinal - (retention - 1) then Except.error PyError.overflow
  else
    let keepFrom : Int := reference.toOrdinal - (retention - 1)
    match fs.lookup base with
    | none => Except.ok ([], fs)
    | some EntryKind.file => Except.error PyError.osFailure
    | some EntryKind.dir => Except.ok (pruneLoop keepFrom base fs (fs.childNames base))

/-! ### EnsureDailyBackupUseCase

Embeds `application/use_cases/ensure_daily_backup.py`.  The collaborating
`ArchiveService.create_zip` is abstracted as a function from the filesystem
and the server root to the produced archive path and the updated filesystem.
The trace of collaborator invocations is returned alongside the result so
that "no archive or prune work is performed" is a statement about the
emitted events. -/

/-- One collaborator invocation made by `EnsureDailyBackupUseCase.execute`. -/
inductive BackupEvent where
  | prepareCall (d : PyDate)
  | createZipCall (root : FilePath0)
  | storeCall (src dst : FilePath0) (filename : String)
  | pruneCall (retention : Int) (reference : PyDate)
deriving DecidableEq, Repr

/-- Embeds `EnsureDailyBackupUseCase.execute`, instrumented with its call trace. -/
def ensure_daily_backup (arc : FS → FilePath0 → Except PyError (FilePath0 × FS))
    (base server_root : FilePath0) (retention_days : Int) (archive_filename : String)
    (today : PyDate) (fs : FS) :
    Except PyError (Bool × FS) × List BackupEvent :=
  match prepare_daily_directory base today fs with
  | Except.error e => (Except.error e, [BackupEvent.prepareCall today])
  | Except.ok (none, fs1) => (Except.ok (false, fs1), [BackupEvent.prepareCall today])
  | Except.ok (some destination_dir, fs1) =>
    match arc fs1 server_root with
    | Except.error e =>
      (Except.error e, [BackupEvent.prepareCall today, BackupEvent.createZipCall server_root])
    | Except.ok (archive_path, fs2) =>
      match store_archive archive_path destination_dir archive_filename fs2 with
      | Except.error e =>
        (Except.error e,
         [BackupEvent.prepareCall today, BackupEvent.createZipCall server_root,
          BackupEvent.storeCall archive_path destination_dir archive_filename])
      | Except.ok (_, fs3) =>
        match prune_older_than fs3 base retention_days today with
        | Except.error e =>
          (Except.error e,
           [BackupEvent.prepareCall today, BackupEvent.createZipCall server_root,
            BackupEvent.storeCall archive_path destination_dir archive_filename,
            BackupEvent.pruneCall retention_days today])
        | Except.ok (_, fs4) =>
          (Except.ok (true, fs4),
           [BackupEvent.prepareCall today, BackupEvent.createZipCall server_root,
            BackupEvent.storeCall archive_path destination_dir archive_filename,
            BackupEvent.pruneCall retention_days today])

/-! ### StartServerWorkflowUseCase

Embeds `application/use_cases/start_server_workflow.py`, with the two
sub-use-cases abstracted by their outcomes: `backup` is `none` when no
backup use case is configured, `some r` for its result otherwise, and
`startR` is the outcome of `StartServerUseCase.execute`. -/

/-- One sub-use-case invocation made by the workflow coordinator. -/
inductive WfEvent where
  | backupRun
  | startRun
deriving DecidableEq, Repr

/-- Embeds `StartServerWorkflowUseCase.execute`, instrumented with its call trace. -/
def start_server_workflow (backup : Option (Except PyError Bool))
    (startR : Except PyError Unit) : Except PyError Bool × List WfEvent :=
  match backup with
  | none =>
    match startR with
    | Except.error e => (Except.error e, [WfEvent.startRun])
    | Except.ok _ => (Except.ok false, [WfEvent.startRun])
  | some (Except.error e) => (Except.error e, [WfEvent.backupRun])
  | some (Except.ok b) =>
    match startR with
    | Except.error e => (Except.error e, [WfEvent.backupRun, WfEvent.startRun])
    | Except.ok _ => (Except.ok b, [WfEvent.backupRun, WfEvent.startRun])

/-! ### SubprocessServerManager

Embeds `infrastructure/process/subprocess_server_manager.py`.  The manager's
mutable fields `_process`, `_state`, `_state_since` become `MState`; the
`monotonic()` clock and every observation of the operating system (script
existence, `poll()` liveness, spawn success, the outcomes of the bounded
waits and of `taskkill`) are explicit inputs.  A single liveness answer is
used for all `poll()` calls inside one refresh, which is faithful because a
process that has been reaped never reports alive again.  Operations that
raise still mutate the object, so failing operations return the poststate
alongside the error. -/

/-- Embeds `ServerState` from `domain/services/server_manager.py`. -/
inductive ServerState where
  | stopped
  | starting
  | running
deriving DecidableEq, Repr

/-- The manager's guarded mutable fields: whether `_process` holds a handle,
the cached `_state`, and `_state_since`. -/
structure MState where
  hasProcess : Bool
  state : ServerState
  stateSince : Rat
deriving DecidableEq, Repr

/-- Value of `self._startup_grace_period` (10.0 seconds). -/
def startup_grace_period : Rat := 10

/-- The state of a freshly constructed `SubprocessServerManager`. -/
def initial_state (t0 : Rat) : MState := ⟨false, ServerState.stopped, t0⟩

/-- Embeds `SubprocessServerManager._set_state_locked`: record the transition and
its timestamp only when the state actually changes. -/
def set_state_locked (s : MState) (st : ServerState) (now : Rat) : MState :=
  if s.state = st then s else { s with state := st, stateSince := now }

/-- Embeds `SubprocessServerManager._refresh_state_locked`; `alive` is the answer
of `self._process.poll() is None` while a handle is held. -/
def refresh_state_locked (s : MState) (alive : Bool) (now : Rat) : MState :=
  if (s.hasProcess && alive) = false then
    set_state_locked
      (if s.hasProcess && !alive then { s with hasProcess := false } else s)
      ServerState.stopped now
  else if s.state = ServerState.starting then
    (if startup_grace_period ≤ now - s.stateSince then
      set_state_locked s ServerState.running now
    else s)
  else if s.state = ServerState.running then s
  else set_state_locked s ServerState.running now

/-- Embeds `SubprocessServerManager.is_running`. -/
def is_running (s : MState) (alive : Bool) (now : Rat) : Bool × MState :=
  (s.hasProcess && alive, refresh_state_locked s alive now)

/-- Embeds `SubprocessServerManager.get_state`. -/
def get_state (s : MState) (alive : Bool) (now : Rat) : ServerState × MState :=
  ((refresh_state_locked s alive now).state, refresh_state_locked s alive now)

/-- Embeds `SubprocessServerManager.start`; `scriptExists` is
`script_path.exists()`, `aliveAtCheck` is the `poll()` answer in the
already-running check, `spawnOk` is whether `subprocess.Popen` succeeds. -/
def start (s : MState) (scriptExists aliveAtCheck spawnOk : Bool) (now : Rat) :
    Except (PyError × MState) MState :=
  if scriptExists = false then Except.error (PyError.resourceNotFound, s)
  else if s.hasProcess && aliveAtCheck then Except.error (PyError.alreadyRunning, s)
  else
    (if spawnOk then Except.ok { set_state_locked s ServerState.starting now with hasProcess := true }
     else
       Except.error (PyError.spawnFailure,
         set_state_locked
           { set_state_locked s ServerState.starting now with hasProcess := false }
           ServerState.stopped now))

/-- The operating-system observations made during one `stop` call. -/
structure StopEnv where
  aliveAtEntry : Bool
  posix : Bool
  wait60Exits : Bool
  taskkillOk : Bool
  wait10Exits : Bool
  aliveAtRefresh : Bool
deriving DecidableEq, Repr

/-- The termination actions `stop` performs against the operating system.
`killGroupForce` is modelled from the spec: a forceful kill addressed to the
entire process group.  The source never performs it — its timeout handler
calls `process.kill()`, which signals only the direct child — so no code
path emits this event; it exists so that the spec's group-kill claim can be
stated and compared against the emitted trace. -/
inductive StopEvent where
  | ctrlBreak
  | sigtermGroup
  | waitGrace
  | taskkillTree
  | waitAfterKill
  | killDirectChild
  | killGroupForce
deriving DecidableEq, Repr

/-- Embeds `SubprocessServerManager.stop`, instrumented with the trace of
termination actions.  `waitGrace` is `process.wait(timeout=60)`,
`waitAfterKill` is the `process.wait(timeout=10)` after `taskkill`. -/
def stop (s : MState) (env : StopEnv) (now : Rat) :
    Except (PyError × MState) MState × List StopEvent :=
  if (s.hasProcess && env.aliveAtEntry) = false then
    (Except.error (PyError.notRunning,
       set_state_locked { s with hasProcess := false } ServerState.stopped now), [])
  else if env.posix then
    (if env.wait60Exits then
      (Except.ok (set_state_locked { s with hasProcess := false } ServerState.stopped now),
       [StopEvent.sigtermGroup, StopEvent.waitGrace])
    else
      (Except.error (PyError.notRunning, refresh_state_locked s env.aliveAtRefresh now),
       [StopEvent.sigtermGroup, StopEvent.waitGrace, StopEvent.killDirectChild]))
  else
    (if env.wait60Exits then
      (Except.ok (set_state_locked { s with hasProcess := false } ServerState.stopped now),
       [StopEvent.ctrlBreak, StopEvent.waitGrace])
    else if env.taskkillOk = false then
      (Except.error (PyError.notRunning, refresh_state_locked s env.aliveAtRefresh now),
       [StopEvent.ctrlBreak, StopEvent.waitGrace, StopEvent.taskkillTree])
    else if env.wait10Exits then
      (Except.ok (set_state_locked { s with hasProcess := false } ServerState.stopped now),
       [StopEvent.ctrlBreak, StopEvent.waitGrace, StopEvent.taskkillTree,
        StopEvent.waitAfterKill])
    else
      (Except.error (PyError.notRunning, refresh_state_locked s env.aliveAtRefresh now),
       [StopEvent.ctrlBreak, StopEvent.waitGrace, StopEvent.taskkillTree,
        StopEvent.waitAfterKill]))

/-- The manager state after an operation, whether it returned or raised. -/
def postOf (r : Except (PyError × MState) MState) : MState :=
  match r with
  | Except.ok s => s
  | Except.error (_, s) => s

/-! ### Derived predicates and concrete fixtures -/

/-- The deletion condition of the prune loop, evaluated on a fixed
filesystem: the candidate is a directory whose name parses as a date
strictly earlier than `keepFrom`. -/
def pruneCond (fs : FS) (keepFrom : Int) (base : FilePath0) (n : String) : Bool :=
  if fs.lookup (base ++ [n]) = some EntryKind.dir then
    match parseDate n with
    | some d => decide (d.toOrdinal < keepFrom)
    | none => false
  else false

/-- The implicit invariant of the manager: the cached state is STOPPED
exactly when no process handle is held. -/
def lifecycleInv (s : MState) : Prop := s.state = ServerState.stopped ↔ s.hasProcess = false

instance (s : MState) : Decidable (lifecycleInv s) := by
  unfold lifecycleInv
  infer_instance

instance {ε α : Type} [DecidableEq ε] [DecidableEq α] : DecidableEq (Except ε α) := fun x y =>
  match x, y with
  | Except.ok a, Except.ok b =>
    if h : a = b then isTrue (by rw [h]) else isFalse (fun he => h (Except.ok.inj he))
  | Except.error a, Except.error b =>
    if h : a = b then isTrue (by rw [h]) else isFalse (fun he => h (Except.error.inj he))
  | Except.ok _, Except.error _ => isFalse (fun he => Except.noConfusion he)
  | Except.error _, Except.ok _ => isFalse (fun he => Except.noConfusion he)

def c1Path : FilePath0 := ["backups", "2024-01-10"]

def c1FS : FS := ⟨[(c1Path, EntryKind.dir), (["backups"], EntryKind.dir)]⟩

/-- Archive service used by the C2 witness: drops a fixed zip file into the
filesystem and returns its path. -/
def c2Arc : FS → FilePath0 → Except PyError (FilePath0 × FS) :=
  fun f _ => Except.ok (["tmp.zip"], f.insert ["tmp.zip"] EntryKind.file)

def c2FSSkip : FS := ⟨[(["b", "2024-01-10"], EntryKind.dir), (["b"], EntryKind.dir)]⟩

def c2FSFresh : FS := ⟨[(["b"], EntryKind.dir)]⟩

def c2FSDone : FS :=
  ⟨[(["b", "2024-01-10", "a.zip"], EntryKind.file), (["b", "2024-01-10"], EntryKind.dir),
    (["b"], EntryKind.dir)]⟩

def c3FS : FS :=
  ⟨[(["bk"], EntryKind.dir),
    (["bk", "2024-01-01"], EntryKind.dir),
    (["bk", "2024-01-02"], EntryKind.file),
    (["bk", "2024-01-03"], EntryKind.dir),
    (["bk", "2024-01-03", "old.zip"], EntryKind.file),
    (["bk", "2024-01-04"], EntryKind.dir),
    (["bk", "2024-01-10"], EntryKind.dir),
    (["bk", "notes"], EntryKind.dir)]⟩

def c3FSAfter : FS :=
  ⟨[(["bk"], EntryKind.dir),
    (["bk", "2024-01-02"], EntryKind.file),
    (["bk", "2024-01-04"], EntryKind.dir),
    (["bk", "2024-01-10"], EntryKind.dir),
    (["bk", "notes"], EntryKind.dir)]⟩

def c4FS : FS := ⟨[(["tmp.zip"], EntryKind.file), (["dest"], EntryKind.dir)]⟩

def c6State : MState := ⟨true, ServerState.running, 0⟩

def c7State : MState := ⟨true, ServerState.running, 5⟩

def c7Env : StopEnv := ⟨false, true, true, true, true, false⟩

def c8State : MState := ⟨true, ServerState.running, 0⟩

def c8Env : StopEnv := ⟨true, true, false, true, true, false⟩

/-! ### Helper lemmas about the filesystem model -/

theorem append_singleton_inj (base : FilePath0) (m n : String) :
    base ++ [m] = base ++ [n] ↔ m = n := by
  constructor
  · intro h
    have h2 := List.append_cancel_left h
    simpa using h2
  · intro h
    rw [h]

theorem pathUnder_sibling (base : FilePath0) (n m : String) :
    pathUnder (base ++ [n]) (base ++ [m]) = true ↔ m = n := by
  unfold pathUnder
  have hlen : (base ++ [n]).length = base.length + 1 := by simp
  have htake : (base ++ [m]).take (base.length + 1) = base ++ [m] := by
    apply List.take_of_length_le
    simp
  rw [hlen, decide_eq_true_eq, htake]
  constructor
  · intro h
    exact (append_singleton_inj base m n).mp h
  · intro h
    rw [h]

theorem FS.lookup_insert (fs : FS) (p : FilePath0) (k : EntryKind) (q : FilePath0) :
    (fs.insert p k).lookup q = if p = q then some k else fs.lookup q := by
  simp [FS.insert, FS.lookup, lookupL]

theorem lookupL_mem {l : List (FilePath0 × EntryKind)} {q : FilePath0} {k : EntryKind}
    (h : lookupL l q = some k) : q ∈ l.map Prod.fst := by
  induction l with
  | nil => exact Option.noConfusion h
  | cons e rest ih =>
    rw [lookupL] at h
    by_cases he : e.1 = q
    · subst he
      rw [List.map_cons]
      exact List.mem_cons_self _ _
    · rw [if_neg he] at h
      rw [List.map_cons]
      exact List.mem_cons_of_mem _ (ih h)

theorem lookupL_removeTreeL (p : FilePath0) (l : List (FilePath0 × EntryKind)) (q : FilePath0) :
    lookupL (removeTreeL p l) q = if pathUnder p q = true then none else lookupL l q := by
  induction l with
  | nil =>
    simp only [removeTreeL, lookupL]
    split <;> rfl
  | cons e rest ih =>
    rw [removeTreeL]
    by_cases hu : pathUnder p e.1
    · rw [if_pos hu, ih]
      by_cases hq : pathUnder p q
      · simp [hq]
      · have hne : e.1 ≠ q := fun h => hq (h ▸ hu)
        simp [hq, lookupL, hne]
    · rw [if_neg hu, lookupL]
      by_cases he : e.1 = q
      · have hq : pathUnder p q = false := by
          rw [← he]
          exact Bool.not_eq_true _ ▸ (by simpa using hu)
        simp [he, hq, lookupL]
      · rw [if_neg he, ih]
        by_cases hq : pathUnder p q
        · simp [hq]
        · simp [hq, lookupL, he]

theorem FS.lookup_removeTree (fs : FS) (p q : FilePath0) :
    (fs.removeTree p).lookup q = if pathUnder p q = true then none else fs.lookup q :=
  lookupL_removeTreeL p fs.entries q

theorem FS.lookup_removeTrees (fs : FS) (ps : List FilePath0) (q : FilePath0) :
    (fs.removeTrees ps).lookup q =
      if ps.any (fun p => pathUnder p q) = true then none else fs.lookup q := by
  induction ps generalizing fs with
  | nil => simp [FS.removeTrees]
  | cons p ps ih =>
    rw [FS.removeTrees, ih, FS.lookup_removeTree]
    by_cases h1 : pathUnder p q
    · simp [h1]
    · simp [h1]

theorem childNameOf_append (base : FilePath0) (n : String) :
    childNameOf base (base ++ [n]) = some n := by
  simp [childNameOf, List.take_left, List.drop_left]

theorem childNameOf_some {base p : FilePath0} {n : String}
    (h : childNameOf base p = some n) : p = base ++ [n] := by
  unfold childNameOf at h
  by_cases ht : p.take base.length = base
  · rw [if_pos ht] at h
    rcases hd : p.drop base.length with _ | ⟨a, _ | ⟨b, t⟩⟩
    · rw [hd] at h
      exact absurd h (by simp)
    · rw [hd] at h
      simp only [Option.some.injEq] at h
      subst h
      conv_lhs => rw [← List.take_append_drop base.length p]
      rw [ht, hd]
    · rw [hd] at h
      exact absurd h (by simp)
  · rw [if_neg ht] at h
    exact absurd h (by simp)

theorem mem_childNamesL (base : FilePath0) (ps : List FilePath0) (n : String) :
    n ∈ childNamesL base ps ↔ base ++ [n] ∈ ps := by
  induction ps with
  | nil => simp [childNamesL]
  | cons p rest ih =>
    rw [childNamesL]
    cases hc : childNameOf base p with
    | some x =>
      have hp : p = base ++ [x] := childNameOf_some hc
      subst hp
      simp only [List.mem_cons, ih]
      constructor
      · rintro (h | h)
        · subst h
          exact Or.inl rfl
        · exact Or.inr h
      · rintro (h | h)
        · exact Or.inl ((append_singleton_inj base n x).mp h)
        · exact Or.inr h
    | none =>
      rw [ih]
      simp only [List.mem_cons]
      constructor
      · intro h
        exact Or.inr h
      · rintro (h | h)
        · rw [← h, childNameOf_append] at hc
          exact absurd hc (by simp)
        · exact h

theorem nodup_childNamesL (base : FilePath0) (ps : List FilePath0) (h : ps.Nodup) :
    (childNamesL base ps).Nodup := by
  induction ps with
  | nil => simp [childNamesL]
  | cons p rest ih =>
    rw [childNamesL]
    rcases List.nodup_cons.mp h with ⟨hp, hrest⟩
    cases hc : childNameOf base p with
    | some x =>
      refine List.nodup_cons.mpr ⟨?_, ih hrest⟩
      intro hmem
      have := (mem_childNamesL base rest x).mp hmem
      rw [← childNameOf_some hc] at this
      exact hp this
    | none => exact ih hrest

theorem FS.childNames_nodup (fs : FS) (base : FilePath0)
    (h : (fs.entries.map Prod.fst).Nodup) : (fs.childNames base).Nodup :=
  nodup_childNamesL base _ h

theorem FS.mem_childNames (fs : FS) (base : FilePath0) (n : String) :
    n ∈ fs.childNames base ↔ base ++ [n] ∈ fs.entries.map Prod.fst :=
  mem_childNamesL base _ n

theorem pruneCond_eq_true (fs : FS) (keepFrom : Int) (base : FilePath0) (n : String) :
    pruneCond fs keepFrom base n = true ↔
      fs.lookup (base ++ [n]) = some EntryKind.dir ∧
        ∃ d, parseDate n = some d ∧ d.toOrdinal < keepFrom := by
  unfold pruneCond
  by_cases hd : fs.lookup (base ++ [n]) = some EntryKind.dir
  · rw [if_pos hd]
    cases hp : parseDate n with
    | none => simp [hd, hp]
    | some d => simp [hd, hp]
  · rw [if_neg hd]
    simp [hd]

theorem filter_ext_on {α : Type} (f g : α → Bool) :
    ∀ l : List α, (∀ a ∈ l, f a = g a) → l.filter f = l.filter g
  | [], _ => rfl
  | a :: l, h => by
    have ha := h a (List.mem_cons_self a l)
    have hl := filter_ext_on f g l (fun b hb => h b (List.mem_cons_of_mem a hb))
    simp only [List.filter, ha, hl]

theorem pruneCond_removeTree_sibling (fs : FS) (keepFrom : Int) (base : FilePath0)
    (n m : String) (hne : m ≠ n) :
    pruneCond (fs.removeTree (base ++ [n])) keepFrom base m = pruneCond fs keepFrom base m := by
  unfold pruneCond
  rw [FS.lookup_removeTree]
  have : pathUnder (base ++ [n]) (base ++ [m]) = false := by
    by_cases h : pathUnder (base ++ [n]) (base ++ [m]) = true
    · exact absurd ((pathUnder_sibling base n m).mp h) hne
    · exact Bool.eq_false_iff.mpr h
  rw [this]
  simp

/-- Running the prune loop on a duplicate-free list of names deletes exactly
the names satisfying `pruneCond` on the starting filesystem, in order. -/
theorem pruneLoop_spec (keepFrom : Int) (base : FilePath0) (fs : FS) (names : List String)
    (h : names.Nodup) :
    pruneLoop keepFrom base fs names =
      ((names.filter (pruneCond fs keepFrom base)).map (fun n => base ++ [n]),
       fs.removeTrees ((names.filter (pruneCond fs keepFrom base)).map (fun n => base ++ [n]))) := by
  induction names generalizing fs with
  | nil => rfl
  | cons n rest ih =>
    have hn : n ∉ rest := (List.nodup_cons.mp h).1
    have hrest : rest.Nodup := (List.nodup_cons.mp h).2
    by_cases hd : fs.lookup (base ++ [n]) = some EntryKind.dir
    · cases hp : parseDate n with
      | none =>
        have hc : pruneCond fs keepFrom base n = false := by
          unfold pruneCond
          rw [if_pos hd, hp]
        rw [pruneLoop, if_pos hd]
        simp only [hp]
        rw [ih fs hrest]
        simp only [List.filter_cons, hc]
        rfl
      | some d =>
        by_cases hlt : d.toOrdinal < keepFrom
        · have hc : pruneCond fs keepFrom base n = true := by
            unfold pruneCond
            rw [if_pos hd, hp]
            exact decide_eq_true hlt
          have hcong :
              rest.filter (pruneCond (fs.removeTree (base ++ [n])) keepFrom base) =
                rest.filter (pruneCond fs keepFrom base) :=
            filter_ext_on _ _ rest (fun m hm =>
              pruneCond_removeTree_sibling fs keepFrom base n m
                (fun he => hn (he ▸ hm)))
          rw [pruneLoop, if_pos hd]
          simp only [hp]
          rw [if_pos hlt, ih (fs.removeTree (base ++ [n])) hrest, hcong]
          simp only [List.filter_cons, hc, if_pos, List.map_cons]
          rfl
        · have hc : pruneCond fs keepFrom base n = false := by
            unfold pruneCond
            rw [if_pos hd, hp]
            exact decide_eq_false hlt
          rw [pruneLoop, if_pos hd]
          simp only [hp]
          rw [if_neg hlt, ih fs hrest]
          simp only [List.filter_cons, hc]
          rfl
    · have hc : pruneCond fs keepFrom base n = false := by
        unfold pruneCond
        rw [if_neg hd]
      rw [pruneLoop, if_neg hd, ih fs hrest]
      simp only [List.filter_cons, hc]
      rfl

/-! ### Helper lemmas about `mkdirParents` -/

/-- Auxiliary lemma: `mkdirParentsAux` preserves every existing binding (it only inserts
paths that were absent). -/
theorem mkdirParentsAux_preserves {fs fs2 : FS} {done : FilePath0} {rest : List String}
    (h : mkdirParentsAux fs done rest = Except.ok fs2) :
    ∀ q k, fs.lookup q = some k → fs2.lookup q = some k := by
  induction rest generalizing fs done with
  | nil =>
    rw [mkdirParentsAux] at h
    injection h with h
    subst h
    exact fun _ _ hq => hq
  | cons c cs ih =>
    rw [mkdirParentsAux] at h
    cases hl : fs.lookup (done ++ [c]) with
    | none =>
      rw [hl] at h
      intro q k hq
      refine ih h q k ?_
      rw [FS.lookup_insert]
      by_cases he : done ++ [c] = q
      · rw [← he] at hq
        rw [hq] at hl
        exact Option.noConfusion hl
      · rw [if_neg he]
        exact hq
    | some kind =>
      cases kind with
      | dir =>
        rw [hl] at h
        exact ih h
      | file =>
        rw [hl] at h
        exact Except.noConfusion h

/-- After a successful `mkdirParentsAux`, every prefix extension of `done`
along `rest` is bound to a directory. -/
theorem mkdirParentsAux_chain {fs fs2 : FS} {done : FilePath0} {rest : List String}
    (h : mkdirParentsAux fs done rest = Except.ok fs2) :
    ∀ i < rest.length, fs2.lookup (done ++ rest.take (i + 1)) = some EntryKind.dir := by
  induction rest generalizing fs done with
  | nil => intro i hi; exact absurd hi (by simp)
  | cons c cs ih =>
    rw [mkdirParentsAux] at h
    cases hl : fs.lookup (done ++ [c]) with
    | none =>
      rw [hl] at h
      intro i hi
      cases i with
      | zero =>
        simp only [List.take_succ_cons, List.take_zero]
        refine mkdirParentsAux_preserves h (done ++ [c]) EntryKind.dir ?_
        rw [FS.lookup_insert, if_pos rfl]
      | succ j =>
        have := ih h j (by simpa using Nat.lt_of_succ_lt_succ hi)
        simpa [List.take_succ_cons, List.append_assoc] using this
    | some kind =>
      cases kind with
      | dir =>
        rw [hl] at h
        intro i hi
        cases i with
        | zero =>
          simp only [List.take_succ_cons, List.take_zero]
          exact mkdirParentsAux_preserves h (done ++ [c]) EntryKind.dir hl
        | succ j =>
          have := ih h j (by simpa using Nat.lt_of_succ_lt_succ hi)
          simpa [List.take_succ_cons, List.append_assoc] using this
      | file =>
        rw [hl] at h
        exact Except.noConfusion h

/-- When every prefix extension of `done` along `rest` is already a
directory, `mkdirParentsAux` is the identity. -/
theorem mkdirParentsAux_noop {fs : FS} {done : FilePath0} {rest : List String}
    (h : ∀ i < rest.length, fs.lookup (done ++ rest.take (i + 1)) = some EntryKind.dir) :
    mkdirParentsAux fs done rest = Except.ok fs := by
  induction rest generalizing done with
  | nil => rfl
  | cons c cs ih =>
    have h0 : fs.lookup (done ++ [c]) = some EntryKind.dir := by
      have := h 0 (by simp)
      simpa using this
    rw [mkdirParentsAux, h0]
    refine ih (fun j hj => ?_)
    have := h (j + 1) (by simpa using Nat.succ_lt_succ hj)
    simpa [List.take_succ_cons, List.append_assoc] using this

/-! ### Helper lemmas about the lifecycle manager -/

theorem set_state_locked_state (s : MState) (st : ServerState) (now : Rat) :
    (set_state_locked s st now).state = st := by
  unfold set_state_locked
  by_cases h : s.state = st
  · rw [if_pos h]
    exact h
  · rw [if_neg h]

theorem set_state_locked_hasProcess (s : MState) (st : ServerState) (now : Rat) :
    (set_state_locked s st now).hasProcess = s.hasProcess := by
  unfold set_state_locked
  by_cases h : s.state = st
  · rw [if_pos h]
  · rw [if_neg h]

/-- A refresh establishes the invariant unconditionally. -/
theorem lifecycleInv_refresh (s : MState) (alive : Bool) (now : Rat) :
    lifecycleInv (refresh_state_locked s alive now) := by
  unfold refresh_state_locked
  by_cases hr : (s.hasProcess && alive) = false
  · rw [if_pos hr]
    unfold lifecycleInv
    rw [set_state_locked_state, set_state_locked_hasProcess]
    cases hp : s.hasProcess with
    | false =>
      simp [hp]
    | true =>
      have ha : alive = false := by
        cases alive with
        | false => rfl
        | true => rw [hp] at hr; exact Bool.noConfusion hr
      simp [hp, ha]
  · rw [if_neg hr]
    have hp : s.hasProcess = true := by
      cases hp : s.hasProcess with
      | false =>
        rw [hp] at hr
        simp at hr
      | true => rfl
    by_cases hst : s.state = ServerState.starting
    · rw [if_pos hst]
      by_cases hg : startup_grace_period ≤ now - s.stateSince
      · rw [if_pos hg]
        unfold lifecycleInv
        rw [set_state_locked_state, set_state_locked_hasProcess, hp]
        simp
      · rw [if_neg hg]
        unfold lifecycleInv
        rw [hst, hp]
        simp
    · rw [if_neg hst]
      by_cases hru : s.state = ServerState.running
      · rw [if_pos hru]
        unfold lifecycleInv
        rw [hru, hp]
        simp
      · rw [if_neg hru]
        unfold lifecycleInv
        rw [set_state_locked_state, set_state_locked_hasProcess, hp]
        simp

/-! ### Claims -/

/-- Claim C1: for every calendar date, when `prepare_daily_directory`
creates the dated directory and returns its path, that path is the dated
child of the backup root and is bound to a directory; a second call for the
same date returns the "no new directory" signal `none`, leaves the
filesystem unchanged, and the directory stays in place. -/
theorem claim1_prepare_twice (fs fs1 : FS) (base : FilePath0) (d : PyDate) (p : FilePath0)
    (h : prepare_daily_directory base d fs = Except.ok (some p, fs1)) :
    p = base ++ [formatDate d]
  ∧ fs1.lookup p = some EntryKind.dir
  ∧ prepare_daily_directory base d fs1 = Except.ok (none, fs1) := by
  unfold prepare_daily_directory at h ⊢
  cases hm : mkdirParents fs base with
  | error e =>
    simp only [hm] at h
    exact Except.noConfusion h
  | ok fs0 =>
    simp only [hm] at h
    cases hl : fs0.lookup (base ++ [formatDate d]) with
    | none =>
      simp only [hl] at h
      simp only [Except.ok.injEq, Prod.mk.injEq, Option.some.injEq] at h
      obtain ⟨hp, hfs⟩ := h
      subst hp
      subst hfs
      have hlookup :
          (fs0.insert (base ++ [formatDate d]) EntryKind.dir).lookup (base ++ [formatDate d]) =
            some EntryKind.dir := by
        rw [FS.lookup_insert, if_pos rfl]
      have hchain := mkdirParentsAux_chain hm
      have hnoop :
          mkdirParents (fs0.insert (base ++ [formatDate d]) EntryKind.dir) base =
            Except.ok (fs0.insert (base ++ [formatDate d]) EntryKind.dir) := by
        unfold mkdirParents
        apply mkdirParentsAux_noop
        intro i hi
        have hc := hchain i hi
        have hlen : (base.take (i + 1)).length = i + 1 := by
          rw [List.length_take]
          exact Nat.min_eq_left (by omega)
        have hne : base ++ [formatDate d] ≠ [] ++ base.take (i + 1) := by
          intro he
          have h1 := congrArg List.length he
          simp only [List.length_append, List.length_cons, List.length_nil, List.nil_append,
            hlen] at h1
          omega
        rw [FS.lookup_insert, if_neg hne]
        exact hc
      refine ⟨rfl, hlookup, ?_⟩
      simp only [hnoop, hlookup]
    | some kind =>
      cases kind with
      | dir =>
        simp only [hl] at h
        simp at h
      | file =>
        simp only [hl] at h
        exact Except.noConfusion h

/-- Witness for C1 at a concrete empty filesystem and the date 2024-01-10. -/
theorem claim1_witness :
    (prepare_daily_directory ["backups"] ⟨2024, 1, 10⟩ ⟨[]⟩ = Except.ok (some c1Path, c1FS))
  ∧ (c1Path = ["backups"] ++ [formatDate ⟨2024, 1, 10⟩]
     ∧ c1FS.lookup c1Path = some EntryKind.dir
     ∧ prepare_daily_directory ["backups"] ⟨2024, 1, 10⟩ c1FS = Except.ok (none, c1FS)) :=
  ⟨by decide, claim1_prepare_twice ⟨[]⟩ c1FS ["backups"] ⟨2024, 1, 10⟩ c1Path (by decide)⟩

/-- Claim C2: when the dated directory already exists,
`ensure_daily_backup` reports `false` and its trace contains only the
`prepare` call — neither the archive service nor `store_archive` nor
`prune_older_than` is invoked; when `prepare_daily_directory` hands back a
fresh path (and the subsequent steps succeed), it creates the archive,
stores it, prunes, and reports `true`. -/
theorem claim2_skip_or_full_run (arc : FS → FilePath0 → Except PyError (FilePath0 × FS))
    (base root : FilePath0) (r : Int) (fname : String) (today : PyDate) (fs : FS) :
    (∀ fs1, prepare_daily_directory base today fs = Except.ok (none, fs1) →
        ensure_daily_backup arc base root r fname today fs =
          (Except.ok (false, fs1), [BackupEvent.prepareCall today]))
  ∧ (∀ dest fs1 ap fs2 sp fs3 rem fs4,
        prepare_daily_directory base today fs = Except.ok (some dest, fs1) →
        arc fs1 root = Except.ok (ap, fs2) →
        store_archive ap dest fname fs2 = Except.ok (sp, fs3) →
        prune_older_than fs3 base r today = Except.ok (rem, fs4) →
        ensure_daily_backup arc base root r fname today fs =
          (Except.ok (true, fs4),
           [BackupEvent.prepareCall today, BackupEvent.createZipCall root,
            BackupEvent.storeCall ap dest fname, BackupEvent.pruneCall r today])) := by
  constructor
  · intro fs1 hprep
    unfold ensure_daily_backup
    simp only [hprep]
  · intro dest fs1 ap fs2 sp fs3 rem fs4 hprep harc hstore hprune
    unfold ensure_daily_backup
    simp only [hprep, harc, hstore, hprune]

/-- Witness for C2: one concrete run where the dated directory already
exists (skip), and one where it is fresh (full run). -/
theorem claim2_witness :
    ensure_daily_backup c2Arc ["b"] ["srv"] 7 "a.zip" ⟨2024, 1, 10⟩ c2FSSkip =
      (Except.ok (false, c2FSSkip), [BackupEvent.prepareCall ⟨2024, 1, 10⟩])
  ∧ ensure_daily_backup c2Arc ["b"] ["srv"] 7 "a.zip" ⟨2024, 1, 10⟩ c2FSFresh =
      (Except.ok (true, c2FSDone),
       [BackupEvent.prepareCall ⟨2024, 1, 10⟩, BackupEvent.createZipCall ["srv"],
        BackupEvent.storeCall ["tmp.zip"] ["b", "2024-01-10"] "a.zip",
        BackupEvent.pruneCall 7 ⟨2024, 1, 10⟩]) :=
  ⟨(claim2_skip_or_full_run c2Arc ["b"] ["srv"] 7 "a.zip" ⟨2024, 1, 10⟩ c2FSSkip).1
      c2FSSkip (by decide),
   (claim2_skip_or_full_run c2Arc ["b"] ["srv"] 7 "a.zip" ⟨2024, 1, 10⟩ c2FSFresh).2
      ["b", "2024-01-10"]
      ⟨[(["b", "2024-01-10"], EntryKind.dir), (["b"], EntryKind.dir)]⟩
      ["tmp.zip"]
      ⟨[(["tmp.zip"], EntryKind.file), (["b", "2024-01-10"], EntryKind.dir),
        (["b"], EntryKind.dir)]⟩
      ["b", "2024-01-10", "a.zip"] c2FSDone [] c2FSDone
      (by decide) (by decide) (by decide) (by decide)⟩

/-- Claim C4: `store_archive` fails with `BackupStorageError` exactly when
the source archive is missing, the destination directory is missing or not
a directory, or an entry already exists at `destinationDir/filename` (an
existing destination is never overwritten); otherwise it moves the archive
and returns `destinationDir/filename`. -/
theorem claim4_store_archive (fs : FS) (src dd : FilePath0) (fname : String) :
    ((store_archive src dd fname fs = Except.error PyError.backupStorage) ↔
        (fs.lookup src = none ∨ fs.lookup dd ≠ some EntryKind.dir ∨
          (fs.lookup (dd ++ [fname])).isSome = true))
  ∧ (fs.lookup src ≠ none → fs.lookup dd = some EntryKind.dir →
      fs.lookup (dd ++ [fname]) = none →
      store_archive src dd fname fs =
        Except.ok (dd ++ [fname], fs.moveEntry src (dd ++ [fname]))) := by
  constructor
  · unfold store_archive
    cases hs : fs.lookup src with
    | none => simp
    | some k =>
      by_cases hd : fs.lookup dd = some EntryKind.dir
      · rw [if_pos hd]
        by_cases hf : fs.lookup (dd ++ [fname]) = none
        · rw [if_pos hf]
          simp [hd, hf]
        · rw [if_neg hf]
          simp only [hd, ne_eq, not_true_eq_false, false_or]
          constructor
          · intro _
            exact Or.inr (Option.isSome_iff_ne_none.mpr hf)
          · intro _
            trivial
      · rw [if_neg hd]
        simp [hd]
  · intro hs hd hf
    unfold store_archive
    cases hsk : fs.lookup src with
    | none => exact absurd hsk hs
    | some k => rw [if_pos hd, if_pos hf]

/-- Witness for C4: moving a concrete archive into an empty destination
directory succeeds and lands at `dest/a.zip`. -/
theorem claim4_witness :
    store_archive ["tmp.zip"] ["dest"] "a.zip" c4FS =
      Except.ok (["dest"] ++ ["a.zip"], c4FS.moveEntry ["tmp.zip"] (["dest"] ++ ["a.zip"])) :=
  (claim4_store_archive c4FS ["tmp.zip"] ["dest"] "a.zip").2
    (by decide) (by decide) (by decide)

/-- Counterexample to C3 as stated: the claim quantifies over every
`retentionDays`, but at `retention_days = 10^6` with reference 2024-01-10
the computation `reference - timedelta(days=retention_days - 1)` lands
before `date.min` and raises `OverflowError` instead of returning the list
of deleted paths. -/
theorem claim3_counterexample :
    prune_older_than c3FS ["bk"] 1000000 ⟨2024, 1, 10⟩ = Except.error PyError.overflow := by
  decide

/-- Claim C3 amended: for every `retentionDays` and `referenceDate` whose
coerced window keeps `keepFrom = reference − (retention − 1)` days
representable (`retention − 1` within the `timedelta` day bound and the
resulting ordinal within `date.min ... date.max` — outside those bounds the
source raises `OverflowError`), `prune_older_than` coerces the retention to
at least 1, computes `keepFrom`, deletes exactly the immediate
subdirectories of the backup root whose names `strptime`-parse as dates
strictly earlier than `keepFrom` (everything else, including
non-date-named entries, is untouched), returns the deleted paths, and
returns the empty list when the backup root does not exist. -/
theorem claim3_prune_exact (fs : FS) (base : FilePath0) (r : Int) (ref : PyDate)
    (hnd : (fs.entries.map Prod.fst).Nodup)
    (hdays : (if r ≤ 0 then 1 else r) - 1 ≤ timedeltaMaxDays)
    (hmin : 1 ≤ ref.toOrdinal - ((if r ≤ 0 then 1 else r) - 1))
    (hmax : ref.toOrdinal - ((if r ≤ 0 then 1 else r) - 1) ≤ maxOrdinal) :
    (fs.lookup base = none → prune_older_than fs base r ref = Except.ok ([], fs))
  ∧ (fs.lookup base = some EntryKind.dir →
      ∃ removed fs2,
        prune_older_than fs base r ref = Except.ok (removed, fs2)
        ∧ (∀ p, p ∈ removed ↔ ∃ n d, p = base ++ [n]
              ∧ fs.lookup (base ++ [n]) = some EntryKind.dir
              ∧ parseDate n = some d
              ∧ d.toOrdinal < ref.toOrdinal - ((if r ≤ 0 then 1 else r) - 1))
        ∧ (∀ q, fs2.lookup q =
              if removed.any (fun p2 => pathUnder p2 q) = true then none
              else fs.lookup q)) := by
  have hov1 : ¬(timedeltaMaxDays < (if r ≤ 0 then 1 else r) - 1) := not_lt.mpr hdays
  have hov2 : ¬(ref.toOrdinal - ((if r ≤ 0 then 1 else r) - 1) < 1 ∨
      maxOrdinal < ref.toOrdinal - ((if r ≤ 0 then 1 else r) - 1)) :=
    not_or.mpr ⟨not_lt.mpr hmin, not_lt.mpr hmax⟩
  constructor
  · intro hb
    simp only [prune_older_than]
    rw [if_neg hov1, if_neg hov2]
    simp only [hb]
  · intro hb
    have hnames : (fs.childNames base).Nodup := FS.childNames_nodup fs base hnd
    have hspec := pruneLoop_spec (ref.toOrdinal - ((if r ≤ 0 then 1 else r) - 1)) base fs
      (fs.childNames base) hnames
    refine ⟨((fs.childNames base).filter
        (pruneCond fs (ref.toOrdinal - ((if r ≤ 0 then 1 else r) - 1)) base)).map
          (fun n => base ++ [n]),
      fs.removeTrees (((fs.childNames base).filter
        (pruneCond fs (ref.toOrdinal - ((if r ≤ 0 then 1 else r) - 1)) base)).map
          (fun n => base ++ [n])), ?_, ?_, ?_⟩
    · simp only [prune_older_than]
      rw [if_neg hov1, if_neg hov2]
      simp only [hb]
      rw [hspec]
    · intro p
      simp only [List.mem_map, List.mem_filter]
      constructor
      · rintro ⟨n, ⟨hmem, hcond⟩, rfl⟩
        obtain ⟨hdir, d, hparse, hlt⟩ :=
          (pruneCond_eq_true fs _ base n).mp hcond
        exact ⟨n, d, rfl, hdir, hparse, hlt⟩
      · rintro ⟨n, d, rfl, hdir, hparse, hlt⟩
        refine ⟨n, ⟨?_, ?_⟩, rfl⟩
        · exact (FS.mem_childNames fs base n).mpr (lookupL_mem hdir)
        · exact (pruneCond_eq_true fs _ base n).mpr ⟨hdir, d, hparse, hlt⟩
    · intro q
      rw [FS.lookup_removeTrees]

/-- Witness for C3, realising the spec's worked example: retention 7 with
reference 2024-01-10 deletes the directories dated 2024-01-03 and earlier
(the date-named regular file and the non-date directory are untouched) and
retains 2024-01-04 through 2024-01-10. -/
theorem claim3_witness :
    ((c3FS.entries.map Prod.fst).Nodup
     ∧ (if (7 : Int) ≤ 0 then 1 else 7) - 1 ≤ timedeltaMaxDays
     ∧ 1 ≤ (⟨2024, 1, 10⟩ : PyDate).toOrdinal - ((if (7 : Int) ≤ 0 then 1 else 7) - 1)
     ∧ (⟨2024, 1, 10⟩ : PyDate).toOrdinal - ((if (7 : Int) ≤ 0 then 1 else 7) - 1) ≤ maxOrdinal)
  ∧ ((c3FS.lookup ["bk"] = none →
        prune_older_than c3FS ["bk"] 7 ⟨2024, 1, 10⟩ = Except.ok ([], c3FS))
     ∧ (c3FS.lookup ["bk"] = some EntryKind.dir →
        ∃ removed fs2,
          prune_older_than c3FS ["bk"] 7 ⟨2024, 1, 10⟩ = Except.ok (removed, fs2)
          ∧ (∀ p, p ∈ removed ↔ ∃ n d, p = ["bk"] ++ [n]
                ∧ c3FS.lookup (["bk"] ++ [n]) = some EntryKind.dir
                ∧ parseDate n = some d
                ∧ d.toOrdinal < (⟨2024, 1, 10⟩ : PyDate).toOrdinal -
                    ((if (7 : Int) ≤ 0 then 1 else 7) - 1))
          ∧ (∀ q, fs2.lookup q =
                if removed.any (fun p2 => pathUnder p2 q) = true then none
                else c3FS.lookup q)))
  ∧ prune_older_than c3FS ["bk"] 7 ⟨2024, 1, 10⟩ =
      Except.ok ([["bk", "2024-01-01"], ["bk", "2024-01-03"]], c3FSAfter) :=
  ⟨⟨by decide, by decide, by decide, by decide⟩,
   claim3_prune_exact c3FS ["bk"] 7 ⟨2024, 1, 10⟩ (by decide) (by decide) (by decide) (by decide),
   by decide⟩

theorem refresh_starting_before (s : MState) (now : Rat) (hp : s.hasProcess = true)
    (hst : s.state = ServerState.starting) (h : ¬ startup_grace_period ≤ now - s.stateSince) :
    refresh_state_locked s true now = s := by
  unfold refresh_state_locked
  rw [hp]
  rw [if_neg (by simp)]
  rw [if_pos hst, if_neg h]

theorem refresh_starting_after (s : MState) (now : Rat) (hp : s.hasProcess = true)
    (hst : s.state = ServerState.starting) (h : startup_grace_period ≤ now - s.stateSince) :
    refresh_state_locked s true now = set_state_locked s ServerState.running now := by
  unfold refresh_state_locked
  rw [hp]
  rw [if_neg (by simp)]
  rw [if_pos hst, if_pos h]

theorem refresh_dead_state (s : MState) (now : Rat) :
    (refresh_state_locked s false now).state = ServerState.stopped := by
  unfold refresh_state_locked
  rw [if_pos (by simp)]
  exact set_state_locked_state _ _ _

theorem lifecycleInv_forced_stop (s : MState) (now : Rat) :
    lifecycleInv (set_state_locked { s with hasProcess := false } ServerState.stopped now) := by
  unfold lifecycleInv
  rw [set_state_locked_state, set_state_locked_hasProcess]
  simp

/-- Claim C5: after every successful `start` the cached state is STARTING;
a `get_state` refresh with the process alive reports STARTING while less
than the 10-second grace period has elapsed since the transition, RUNNING
once at least the grace period has elapsed, and STOPPED as soon as the
process has died. -/
theorem claim5_grace_period (s : MState) (se ac sp : Bool) (t0 : Rat) (s1 : MState)
    (hstart : start s se ac sp t0 = Except.ok s1) :
    s1.state = ServerState.starting
  ∧ s1.hasProcess = true
  ∧ (∀ t : Rat, t - s1.stateSince < startup_grace_period →
      (get_state s1 true t).1 = ServerState.starting)
  ∧ (∀ t : Rat, startup_grace_period ≤ t - s1.stateSince →
      (get_state s1 true t).1 = ServerState.running)
  ∧ (∀ t : Rat, (get_state s1 false t).1 = ServerState.stopped) := by
  unfold start at hstart
  by_cases h1 : se = false
  · rw [if_pos h1] at hstart
    exact Except.noConfusion hstart
  · rw [if_neg h1] at hstart
    by_cases h2 : (s.hasProcess && ac) = true
    · rw [if_pos h2] at hstart
      exact Except.noConfusion hstart
    · rw [if_neg h2] at hstart
      cases sp with
      | false => simp at hstart
      | true =>
        simp only [if_pos] at hstart
        injection hstart with hstart
        have hst : s1.state = ServerState.starting := by
          rw [← hstart]
          exact set_state_locked_state s ServerState.starting t0
        have hp : s1.hasProcess = true := by
          rw [← hstart]
        refine ⟨hst, hp, ?_, ?_, ?_⟩
        · intro t ht
          show (refresh_state_locked s1 true t).state = ServerState.starting
          rw [refresh_starting_before s1 t hp hst (by exact not_le.mpr ht)]
          exact hst
        · intro t ht
          show (refresh_state_locked s1 true t).state = ServerState.running
          rw [refresh_starting_after s1 t hp hst ht]
          exact set_state_locked_state _ _ _
        · intro t
          exact refresh_dead_state s1 t

/-- Witness for C5: a concrete start at time 0, queried alive at 5 and 10
seconds and dead at 3 seconds. -/
theorem claim5_witness :
    start ⟨false, ServerState.stopped, 0⟩ true false true 0 =
      Except.ok ⟨true, ServerState.starting, 0⟩
  ∧ (get_state ⟨true, ServerState.starting, 0⟩ true 5).1 = ServerState.starting
  ∧ (get_state ⟨true, ServerState.starting, 0⟩ true 10).1 = ServerState.running
  ∧ (get_state ⟨true, ServerState.starting, 0⟩ false 3).1 = ServerState.stopped := by
  have h := claim5_grace_period ⟨false, ServerState.stopped, 0⟩ true false true 0
    ⟨true, ServerState.starting, 0⟩ rfl
  exact ⟨rfl, h.2.2.1 5 (by norm_num [startup_grace_period]),
    h.2.2.2.1 10 (by norm_num [startup_grace_period]), h.2.2.2.2 3⟩

/-- Counterexample to C6 as stated: a call made while a handle exists and
the process is alive (`aliveAtCheck = true`) but with a missing script path
fails with `ResourceNotFound`, not `AlreadyRunning` — the script-existence
check runs before the already-running check. -/
theorem claim6_counterexample :
    c6State.hasProcess = true
  ∧ start c6State false true true 1 = Except.error (PyError.resourceNotFound, c6State)
  ∧ PyError.resourceNotFound ≠ PyError.alreadyRunning :=
  ⟨rfl, rfl, by decide⟩

/-- Claim C6 amended: for every call to `start` made while a handle exists
and the process is alive, *provided the script path exists*, start fails
with `AlreadyRunning` and the cached state, handle and transition timestamp
are all unchanged (the poststate is exactly the prestate). -/
theorem claim6_amended (s : MState) (ac sp : Bool) (now : Rat)
    (h1 : s.hasProcess = true) (h2 : ac = true) :
    start s true ac sp now = Except.error (PyError.alreadyRunning, s) := by
  unfold start
  rw [if_neg (by simp), if_pos (by rw [h1, h2]; rfl)]

/-- Witness for the amended C6 at a concrete running state. -/
theorem claim6_amended_witness :
    start c6State true true true 1 = Except.error (PyError.alreadyRunning, c6State) :=
  claim6_amended c6State true true 1 rfl rfl

/-- Claim C7: `stop` called with no live handle (handle absent, or the
process already exited) fails with `NotRunning`, performs no termination
action, and as a side effect clears the handle and normalises the cached
state to STOPPED. -/
theorem claim7_stop_not_running (s : MState) (env : StopEnv) (now : Rat)
    (h : s.hasProcess = false ∨ env.aliveAtEntry = false) :
    (stop s env now).1 = Except.error (PyError.notRunning,
        set_state_locked { s with hasProcess := false } ServerState.stopped now)
  ∧ (stop s env now).2 = []
  ∧ (postOf (stop s env now).1).hasProcess = false
  ∧ (postOf (stop s env now).1).state = ServerState.stopped := by
  have hc : (s.hasProcess && env.aliveAtEntry) = false := by
    rcases h with h | h <;> simp [h]
  unfold stop
  rw [if_pos hc]
  refine ⟨rfl, rfl, ?_, ?_⟩
  · show (set_state_locked { s with hasProcess := false } ServerState.stopped now).hasProcess =
      false
    rw [set_state_locked_hasProcess]
  · exact set_state_locked_state _ _ _

/-- Witness for C7: stopping when the held process has already exited. -/
theorem claim7_witness :
    (stop c7State c7Env 6).1 = Except.error (PyError.notRunning,
        set_state_locked { c7State with hasProcess := false } ServerState.stopped 6)
  ∧ (stop c7State c7Env 6).2 = []
  ∧ (postOf (stop c7State c7Env 6).1).hasProcess = false
  ∧ (postOf (stop c7State c7Env 6).1).state = ServerState.stopped :=
  claim7_stop_not_running c7State c7Env 6 (Or.inr rfl)

/-- Counterexample to C8 as stated: on the POSIX path, when the 60-second
graceful wait after the group SIGTERM times out, the code calls
`process.kill()` — a force kill of the direct child only — and never
issues a force kill addressed to the whole process group. -/
theorem claim8_counterexample :
    StopEvent.killGroupForce ∉ (stop c8State c8Env 100).2
  ∧ StopEvent.killDirectChild ∈ (stop c8State c8Env 100).2 := by
  constructor
  · show StopEvent.killGroupForce ∉
      [StopEvent.sigtermGroup, StopEvent.waitGrace, StopEvent.killDirectChild]
    decide
  · show StopEvent.killDirectChild ∈
      [StopEvent.sigtermGroup, StopEvent.waitGrace, StopEvent.killDirectChild]
    decide

/-- Claim C8 amended: on POSIX, when the graceful group-SIGTERM path of
`stop` times out after the 60-second wait, stop force-kills only the
*direct child process* (`process.kill()`), fails with the NotRunning-class
error, and on that failure path the cached state is left as the refreshed
live status rather than forced to STOPPED. -/
theorem claim8_amended (s : MState) (env : StopEnv) (now : Rat)
    (h1 : s.hasProcess = true) (h2 : env.aliveAtEntry = true)
    (h3 : env.posix = true) (h4 : env.wait60Exits = false) :
    stop s env now =
      (Except.error (PyError.notRunning, refresh_state_locked s env.aliveAtRefresh now),
       [StopEvent.sigtermGroup, StopEvent.waitGrace, StopEvent.killDirectChild]) := by
  unfold stop
  rw [if_neg (by rw [h1, h2]; simp), if_pos h3, if_neg (by rw [h4]; simp)]

/-- Witness for the amended C8 at a concrete timed-out graceful stop. -/
theorem claim8_amended_witness :
    stop c8State c8Env 100 =
      (Except.error (PyError.notRunning, refresh_state_locked c8State false 100),
       [StopEvent.sigtermGroup, StopEvent.waitGrace, StopEvent.killDirectChild]) :=
  claim8_amended c8State c8Env 100 rfl rfl rfl rfl

/-- Claim C9: the startup workflow coordinator runs the ensure-daily-backup
composite first when one is configured, invokes the lifecycle `start`
afterwards regardless of the backup-created flag, and returns that flag;
with no backup use case configured it just starts and returns `false`; an
error raised by either step propagates unchanged. -/
theorem claim9_workflow (b : Except PyError Bool) (st : Except PyError Unit) :
    (∀ bv, b = Except.ok bv → st = Except.ok () →
        start_server_workflow (some b) st =
          (Except.ok bv, [WfEvent.backupRun, WfEvent.startRun]))
  ∧ (∀ e, b = Except.error e →
        start_server_workflow (some b) st = (Except.error e, [WfEvent.backupRun]))
  ∧ (∀ bv e, b = Except.ok bv → st = Except.error e →
        start_server_workflow (some b) st =
          (Except.error e, [WfEvent.backupRun, WfEvent.startRun]))
  ∧ (st = Except.ok () →
        start_server_workflow none st = (Except.ok false, [WfEvent.startRun]))
  ∧ (∀ e, st = Except.error e →
        start_server_workflow none st = (Except.error e, [WfEvent.startRun])) := by
  refine ⟨?_, ?_, ?_, ?_, ?_⟩
  · rintro bv rfl rfl
    rfl
  · rintro e rfl
    rfl
  · rintro bv e rfl rfl
    rfl
  · rintro rfl
    rfl
  · rintro e rfl
    rfl

/-- Witness for C9 covering all five outcome combinations. -/
theorem claim9_witness :
    start_server_workflow (some (Except.ok true)) (Except.ok ()) =
      (Except.ok true, [WfEvent.backupRun, WfEvent.startRun])
  ∧ start_server_workflow (some (Except.error PyError.archiveCreation)) (Except.ok ()) =
      (Except.error PyError.archiveCreation, [WfEvent.backupRun])
  ∧ start_server_workflow (some (Except.ok false)) (Except.error PyError.resourceNotFound) =
      (Except.error PyError.resourceNotFound, [WfEvent.backupRun, WfEvent.startRun])
  ∧ start_server_workflow none (Except.ok ()) = (Except.ok false, [WfEvent.startRun])
  ∧ start_server_workflow none (Except.error PyError.resourceNotFound) =
      (Except.error PyError.resourceNotFound, [WfEvent.startRun]) :=
  ⟨(claim9_workflow (Except.ok true) (Except.ok ())).1 true rfl rfl,
   (claim9_workflow (Except.error PyError.archiveCreation) (Except.ok ())).2.1
     PyError.archiveCreation rfl,
   (claim9_workflow (Except.ok false) (Except.error PyError.resourceNotFound)).2.2.1
     false PyError.resourceNotFound rfl rfl,
   (claim9_workflow (Except.ok true) (Except.ok ())).2.2.2.1 rfl,
   (claim9_workflow (Except.ok true) (Except.error PyError.resourceNotFound)).2.2.2.2
     PyError.resourceNotFound rfl⟩

/-- Claim C10: at the completion of every public operation of the lifecycle
manager — returning or raising — the cached state is STOPPED exactly when
no process handle is held; the invariant holds of a fresh manager and is
preserved by `is_running`, `get_state`, `start` and `stop`. -/
theorem claim10_invariant (s : MState) (hinv : lifecycleInv s) :
    (∀ t0 : Rat, lifecycleInv (initial_state t0))
  ∧ (∀ alive : Bool, ∀ now : Rat, lifecycleInv (is_running s alive now).2)
  ∧ (∀ alive : Bool, ∀ now : Rat, lifecycleInv (get_state s alive now).2)
  ∧ (∀ se ac sp : Bool, ∀ now : Rat, lifecycleInv (postOf (start s se ac sp now)))
  ∧ (∀ env : StopEnv, ∀ now : Rat, lifecycleInv (postOf (stop s env now).1)) := by
  refine ⟨?_, ?_, ?_, ?_, ?_⟩
  · intro t0
    unfold lifecycleInv initial_state
    simp
  · intro alive now
    exact lifecycleInv_refresh s alive now
  · intro alive now
    exact lifecycleInv_refresh s alive now
  · intro se ac sp now
    unfold start
    by_cases h1 : se = false
    · rw [if_pos h1]
      exact hinv
    · rw [if_neg h1]
      by_cases h2 : (s.hasProcess && ac) = true
      · rw [if_pos h2]
        exact hinv
      · rw [if_neg h2]
        cases sp with
        | false =>
          show lifecycleInv (set_state_locked
            { set_state_locked s ServerState.starting now with hasProcess := false }
            ServerState.stopped now)
          exact lifecycleInv_forced_stop _ now
        | true =>
          show lifecycleInv
            { set_state_locked s ServerState.starting now with hasProcess := true }
          unfold lifecycleInv
          have : ({ set_state_locked s ServerState.starting now with
              hasProcess := true } : MState).state = ServerState.starting :=
            set_state_locked_state s ServerState.starting now
          rw [this]
          simp
  · intro env now
    unfold stop
    by_cases h0 : (s.hasProcess && env.aliveAtEntry) = false
    · rw [if_pos h0]
      exact lifecycleInv_forced_stop s now
    · rw [if_neg h0]
      by_cases hp : env.posix = true
      · rw [if_pos hp]
        by_cases hw : env.wait60Exits = true
        · rw [if_pos hw]
          exact lifecycleInv_forced_stop s now
        · rw [if_neg hw]
          exact lifecycleInv_refresh s env.aliveAtRefresh now
      · rw [if_neg hp]
        by_cases hw : env.wait60Exits = true
        · rw [if_pos hw]
          exact lifecycleInv_forced_stop s now
        · rw [if_neg hw]
          by_cases ht : env.taskkillOk = false
          · rw [if_pos ht]
            exact lifecycleInv_refresh s env.aliveAtRefresh now
          · rw [if_neg ht]
            by_cases hw10 : env.wait10Exits = true
            · rw [if_pos hw10]
              exact lifecycleInv_forced_stop s now
            · rw [if_neg hw10]
              exact lifecycleInv_refresh s env.aliveAtRefresh now

/-- Witness for C10 at a freshly constructed manager. -/
theorem claim10_witness :
    lifecycleInv (initial_state 0)
  ∧ lifecycleInv (is_running ⟨false, ServerState.stopped, 0⟩ true 1).2
  ∧ lifecycleInv (get_state ⟨false, ServerState.stopped, 0⟩ false 2).2
  ∧ lifecycleInv (postOf (start ⟨false, ServerState.stopped, 0⟩ true false true 3))
  ∧ lifecycleInv
      (postOf (stop ⟨false, ServerState.stopped, 0⟩ ⟨false, true, true, true, true, false⟩ 4).1) := by
  have h := claim10_invariant ⟨false, ServerState.stopped, 0⟩ (by unfold lifecycleInv; simp)
  exact ⟨h.1 0, h.2.1 true 1, h.2.2.1 false 2, h.2.2.2.1 true false true 3, h.2.2.2.2 _ 4⟩

end MCServer
